import Mathlib

/- Verification of the QuestStream volumetric reconstruction pipeline.

   Shallow embedding of
     src/modules/quest_reconstruction_pipeline.py
     src/modules/reconstruction.py
     src/modules/quest_adapter.py
     src/modules/quest_image_processor.py
   Real (float) arithmetic is modelled over ℚ.  Components that the
   repository delegates to files not present in src/ (the module
   quest_reconstruction_utils.py and the native Open3D VoxelBlockGrid)
   are modelled from the specification and marked as such. -/

namespace QuestStream

/-! ## TSDF voxel update (spec section 4.4; native Open3D integrate) -/

/-- A single voxel of the sparse TSDF grid: normalized signed-distance
estimate, confidence weight and (one representative channel of)
accumulated color. -/
structure Voxel where
  tsdf : ℚ
  weight : ℚ
  color : ℚ
deriving DecidableEq, Repr

/-- A freshly allocated voxel: weight 0, value 0. -/
def emptyVoxel : Voxel := ⟨0, 0, 0⟩

/-- Modelled from the spec: the per-voxel running-average update of
section 4.4 step 6 (tsdf is updated to (tsdf*w + u*w_obs)/(w + w_obs),
color likewise, and the new weight is min (w + w_obs) w_max).  The
implementation lives in the native Open3D VoxelBlockGrid.integrate called
from QuestReconstructor.integrate_frame, which is not under src/. -/
def integrateVoxel (wmax wobs : ℚ) (v : Voxel) (u cobs : ℚ) : Voxel :=
  { tsdf := (v.tsdf * v.weight + u * wobs) / (v.weight + wobs)
    color := (v.color * v.weight + cobs * wobs) / (v.weight + wobs)
    weight := min (v.weight + wobs) wmax }

/-- Modelled from the spec: section 4.4 steps 4 to 6.  An observation of a
voxel carries the signed distance sdf = d_obs - depth_along_ray and an
observed color; if sdf > -trunc the voxel is updated with the normalized
truncated value min sdf trunc / trunc, otherwise the voxel is skipped.
none means the frame does not observe the voxel at all. -/
def integrateObs (trunc wmax wobs : ℚ) (v : Voxel) (o : Option (ℚ × ℚ)) : Voxel :=
  match o with
  | none => v
  | some (sdf, cobs) =>
      if -trunc < sdf then integrateVoxel wmax wobs v (min sdf trunc / trunc) cobs else v

/-- Integrating one frame into a grid: per voxel id, apply the frame's
observation of that voxel. -/
def integrateFrameGrid (trunc wmax wobs : ℚ) (g : Nat → Voxel)
    (fr : Nat → Option (ℚ × ℚ)) : Nat → Voxel :=
  fun i => integrateObs trunc wmax wobs (g i) (fr i)

/-- The fate of one voxel across a session: a sequence of observations,
folded through the update. -/
def integrateSeq (trunc wmax wobs : ℚ) (v : Voxel) (obs : List (Option (ℚ × ℚ))) : Voxel :=
  obs.foldl (integrateObs trunc wmax wobs) v

/-- The otherwise-empty grid. -/
def emptyGrid : Nat → Voxel := fun _ => emptyVoxel

/-! ## Voxel hash grid capacity (spec section 4.3) -/

inductive GridError where
  | gridCapacityExceeded
deriving DecidableEq, Repr

/-- Block coordinates are integer 3-tuples. -/
abbrev BlockCoord := ℤ × ℤ × ℤ

/-- The sparse grid index: active block coordinates plus the configured
maximum block count (block_count, reconstruction.py line 33). -/
structure VoxelGrid where
  active : List BlockCoord
  capacity : Nat
deriving DecidableEq, Repr

/-- Insert-if-absent of a batch of block coordinates. -/
def insertBlocks (active : List BlockCoord) (coords : List BlockCoord) : List BlockCoord :=
  coords.foldl (fun acc c => if c ∈ acc then acc else acc ++ [c]) active

/-- Modelled from the spec: section 4.3 activate, insert-if-absent bounded
by the configured block capacity; exceeding it signals
GridCapacityExceeded.  The hash grid itself is native Open3D code
(hashmap().activate in reconstruction.py line 173), not under src/. -/
def activateBlocks (g : VoxelGrid) (coords : List BlockCoord) : Except GridError VoxelGrid :=
  let newActive := insertBlocks g.active coords
  if g.capacity < newActive.length then .error .gridCapacityExceeded
  else .ok { g with active := newActive }

/-! ## Quaternions: the adapter's write order and the pipeline's read order -/

/-- A quaternion as scipy stores it: fields named after the scipy slots
x, y, z, w. -/
structure Quat where
  qx : ℚ
  qy : ℚ
  qz : ℚ
  qw : ℚ
deriving DecidableEq, Repr

/-- A 3x3 matrix with rational entries. -/
structure Mat3 where
  m00 : ℚ
  m01 : ℚ
  m02 : ℚ
  m10 : ℚ
  m11 : ℚ
  m12 : ℚ
  m20 : ℚ
  m21 : ℚ
  m22 : ℚ
deriving DecidableEq, Repr

/-- Rotation matrix of a quaternion whose scipy slots are (x,y,z,w),
normalizing by the squared norm exactly as scipy Rotation.as_matrix does
for a not-necessarily-unit quaternion. -/
def quatToMat (q : Quat) : Mat3 :=
  let n := q.qx ^ 2 + q.qy ^ 2 + q.qz ^ 2 + q.qw ^ 2
  { m00 := 1 - 2 * (q.qy ^ 2 + q.qz ^ 2) / n
    m01 := 2 * (q.qx * q.qy - q.qw * q.qz) / n
    m02 := 2 * (q.qx * q.qz + q.qw * q.qy) / n
    m10 := 2 * (q.qx * q.qy + q.qw * q.qz) / n
    m11 := 1 - 2 * (q.qx ^ 2 + q.qz ^ 2) / n
    m12 := 2 * (q.qy * q.qz - q.qw * q.qx) / n
    m20 := 2 * (q.qx * q.qz - q.qw * q.qy) / n
    m21 := 2 * (q.qy * q.qz + q.qw * q.qx) / n
    m22 := 1 - 2 * (q.qx ^ 2 + q.qy ^ 2) / n }

inductive ScipyError where
  | valueError
deriving DecidableEq, Repr

/-- scipy Rotation.from_quat: expects exactly 4 components, read in
[x, y, z, w] order, and raises ValueError on any other length or on a
zero-norm quaternion.  Over ℚ the squared norm vanishes exactly when all
four components do, which is how the test is written here. -/
def fromQuatScipy (l : List ℚ) : Except ScipyError Quat :=
  match l with
  | [a, b, c, d] =>
      if a = 0 ∧ b = 0 ∧ c = 0 ∧ d = 0 then .error .valueError
      else .ok ⟨a, b, c, d⟩
  | _ => .error .valueError

/-- src/modules/quest_adapter.py lines 41-46: the rotation list the adapter
writes into frames.json for each pose row, in the order
[rot_w, rot_x, rot_y, rot_z]. -/
def adaptPoseRotation (rw rx ry rz : ℚ) : List ℚ := [rw, rx, ry, rz]

/-- src/modules/quest_reconstruction_pipeline.py lines 210-214: the head
rotation matrix is built by R.from_quat(frame.pose.rotation), i.e. the
stored list is interpreted in scipy's [x, y, z, w] order. -/
def headRotationMatrix (rot : List ℚ) : Except ScipyError Mat3 :=
  (fromQuatScipy rot).map quatToMat

/-! ## Camera intrinsics (pipeline get_camera_intrinsics, lines 43-102) -/

/-- A depth descriptor row as built by
quest_image_processor.load_depth_descriptor (lines 110-119); every field is
always populated there, so the dict.get defaults of the consumers never
fire on a present record. -/
structure DepthInfo where
  width : ℚ
  height : ℚ
  near_z : ℚ
  far_z : ℚ
  fov_left : ℚ
  fov_right : ℚ
  fov_top : ℚ
  fov_down : ℚ
deriving DecidableEq, Repr

/-- Optional per-camera intrinsics stored in camera_metadata; absent keys
fall back to the literals 867 / 867 / 640 / 640 (pipeline lines 86-89). -/
structure IntrMeta where
  fx : Option ℚ
  fy : Option ℚ
  cx : Option ℚ
  cy : Option ℚ
deriving DecidableEq, Repr

/-- One camera_metadata entry. -/
structure CamMeta where
  intrinsics : Option IntrMeta
deriving DecidableEq, Repr

/-- The four derived pinhole parameters (fx, fy, cx, cy). -/
structure Intr where
  fx : ℚ
  fy : ℚ
  cx : ℚ
  cy : ℚ
deriving DecidableEq, Repr

/-- Modelled from the spec: compute_depth_camera_params lives in
quest_reconstruction_utils.py, which is not under src/.  Section 4.2:
fx = width/(fov_left+fov_right), fy = height/(fov_top+fov_bottom), and
the principal point from the left/top tangent fractions. -/
def compute_depth_camera_params (l r t b w h : ℚ) : Intr :=
  ⟨w / (l + r), h / (t + b), w * (l / (l + r)), h * (t / (t + b))⟩

/-- Pipeline lines 81-89: the fallback chain
camera_metadata.get(camera, {}).get('intrinsics', {}).get(key, default)
with defaults fx = fy = 867 and cx = cy = 640. -/
def fallbackIntrinsics (meta : List (String × CamMeta)) (camera : String) : Intr :=
  let intrObj : IntrMeta :=
    match meta.lookup camera with
    | none => ⟨none, none, none, none⟩
    | some cd => cd.intrinsics.getD ⟨none, none, none, none⟩
  ⟨intrObj.fx.getD 867, intrObj.fy.getD 867, intrObj.cx.getD 640, intrObj.cy.getD 640⟩

/-- Pipeline get_camera_intrinsics (lines 43-102).  The code keeps fx = 0
until a derivation is accepted and tests `fx == 0` to decide the fallback;
since an accepted derivation forces fx > 300, that flag is equivalent to
the Option used here. -/
def get_camera_intrinsics (meta : List (String × CamMeta)) (camera : String)
    (depth_info : Option DepthInfo) : Intr :=
  let derived : Option Intr :=
    match depth_info with
    | none => none
    | some di =>
        if 0 < di.width ∧ 0 < di.height ∧
            1 / 100 < di.fov_left + di.fov_right ∧ 1 / 100 < di.fov_top + di.fov_down then
          let p := compute_depth_camera_params di.fov_left di.fov_right di.fov_top
            di.fov_down di.width di.height
          if 300 < p.fx ∧ 300 < p.fy then some p else none
        else none
  match derived with
  | some i => i
  | none => fallbackIntrinsics meta camera

/-! ## Depth linearization (spec section 4.2; pipeline lines 249-266) -/

/-- Modelled from the spec: convert_depth_to_linear lives in
quest_reconstruction_utils.py, not under src/.  Section 4.2: a raw value
of 0 means "no data" and is preserved; a non-zero raw sample in the
NDC-like non-linear encoding is mapped to metric distance using the
near/far planes (raw 1 maps to far, raw approaching 0 approaches near). -/
def linearizeSample (near far raw : ℚ) : ℚ :=
  if raw = 0 then 0 else near * far / (far - raw * (far - near))

/-- Per-buffer linearization: same shape, each sample converted. -/
def convert_depth_to_linear (depth : List (List ℚ)) (near far : ℚ) : List (List ℚ) :=
  depth.map (fun row => row.map (linearizeSample near far))

/-- Pipeline lines 249-266: with a depth descriptor present, linearize with
its near_z/far_z planes; without one, the raw values are used unchanged as
metric depth. -/
def pipelineLinearizeDepth (depth_info : Option DepthInfo) (depth : List (List ℚ)) :
    List (List ℚ) :=
  match depth_info with
  | some di => convert_depth_to_linear depth di.near_z di.far_z
  | none => depth

/-! ## The orchestrator frame loop (run_reconstruction, lines 154-403) -/

/-- The observable effect of one per-camera try-block body
(pipeline lines 219-351):
noData - process_quest_frame returned None for rgb or depth (line 230):
  failed_count += 1 and continue;
raisesCapacity / raisesOther - an exception inside the try block, caught
  at line 348: failed_count += 1 and continue;
badIntrinsics - the fx < 400 guard (line 327): continue, no counter;
nonFinitePose - the NaN/Inf pose guard (line 333): continue, no counter;
integrated - integrate_frame succeeded: processed_count += 1. -/
inductive CamOutcome where
  | noData
  | raisesCapacity
  | raisesOther
  | badIntrinsics
  | nonFinitePose
  | integrated
deriving DecidableEq, Repr

/-- One frame of the processing list, abstracted to what the frame loop
observes: the frame's pose rotation list (lines 210-214, fed to scipy
from_quat before the per-camera try block) and, per selected camera, the
outcome of the try-block body. -/
structure LoopFrame where
  rot : List ℚ
  camSteps : List CamOutcome
deriving DecidableEq, Repr

/-- The instrumented loop state: the two counters of the result dict, the
loop indices at which integrate_frame ran, the values handed to
on_progress, and the loop indices at which the cancellation predicate was
polled. -/
structure LoopState where
  processed : Nat
  failed : Nat
  integrated : List Nat
  progress : List Nat
  polls : List Nat
deriving DecidableEq, Repr

def initState : LoopState := ⟨0, 0, [], [], []⟩

/-- State change of one per-camera attempt at loop index i. -/
def stepCam (i : Nat) (s : LoopState) (c : CamOutcome) : LoopState :=
  match c with
  | .noData => { s with failed := s.failed + 1 }
  | .raisesCapacity => { s with failed := s.failed + 1 }
  | .raisesOther => { s with failed := s.failed + 1 }
  | .badIntrinsics => s
  | .nonFinitePose => s
  | .integrated =>
      { s with processed := s.processed + 1, integrated := s.integrated ++ [i] }

/-- The inner camera loop (for cam in cameras_to_process, line 219). -/
def stepCams (i : Nat) (s : LoopState) (cs : List CamOutcome) : LoopState :=
  cs.foldl (stepCam i) s

/-- How a run of the frame loop ends: completed falls through to mesh
extraction (line 357), cancelled is the early `return None` (line 197),
errored is a Python exception escaping the loop (nothing catches a scipy
failure at lines 213-214). -/
inductive RunOutcome where
  | completed (s : LoopState)
  | cancelled (s : LoopState)
  | errored (s : LoopState)
deriving DecidableEq, Repr

/-- The loop state carried by any outcome. -/
def outState : RunOutcome → LoopState
  | .completed s => s
  | .cancelled s => s
  | .errored s => s

/-- True only for the outcome that reaches mesh extraction. -/
def meshExtracted : RunOutcome → Bool
  | .completed _ => true
  | _ => false

/-- Record the cancellation poll of loop iteration i (line 195). -/
def pollState (i : Nat) (s : LoopState) : LoopState :=
  { s with polls := s.polls ++ [i] }

/-- Record the progress callback value int((i+1)/total*100) of loop
iteration i (line 202; Python truncation of the non-negative float equals
Nat floor division here). -/
def progressState (total i : Nat) (s : LoopState) : LoopState :=
  { s with progress := s.progress ++ [(i + 1) * 100 / total] }

/-- The frame loop (lines 194-351): poll the cancellation predicate, emit
the preview/progress callbacks, construct the head matrix with scipy
from_quat (raises out of the loop on a malformed rotation), then run the
per-camera bodies.  The cancellation predicate is modelled as a function
of the poll number, which equals the loop index because the loop polls
exactly once per iteration. -/
def loopRun (cancel : Nat → Bool) (total : Nat) :
    List LoopFrame → Nat → LoopState → RunOutcome
  | [], _, s => .completed s
  | f :: rest, i, s =>
      if cancel i then .cancelled (pollState i s)
      else
        let s2 : LoopState := progressState total i (pollState i s)
        match fromQuatScipy f.rot with
        | .error _ => .errored s2
        | .ok _ => loopRun cancel total rest (i + 1) (stepCams i s2 f.camSteps)

/-- Python l[::k] for a positive stride k (line 191); k = 0 raises in
Python and is outside the modelled domain. -/
def everyNth (k : Nat) (l : List LoopFrame) : List LoopFrame :=
  l.enum.filterMap (fun p => if p.1 % k = 0 then some p.2 else none)

/-- Lines 173-191: clamp end_frame, slice frames[start : end+1], then
stride by frame_interval. -/
def processingFrames (frames : List LoopFrame) (startFrame : Nat)
    (endFrame : Option Nat) (interval : Nat) : List LoopFrame :=
  let total := frames.length
  let e := match endFrame with
    | none => total - 1
    | some e0 => if total ≤ e0 then total - 1 else e0
  everyNth interval ((frames.drop startFrame).take (e + 1 - startFrame))

/-- run_reconstruction (lines 154-403), instrumented: the loop state is
kept in every outcome so that counters and callback traces can be
inspected. -/
def run_reconstruction (cancel : Nat → Bool) (frames : List LoopFrame)
    (startFrame : Nat) (endFrame : Option Nat) (interval : Nat) : RunOutcome :=
  let pf := processingFrames frames startFrame endFrame interval
  loopRun cancel pf.length pf 0 initState

/-- Per-camera outcomes that increment failed_count. -/
def camFails : CamOutcome → Bool
  | .noData => true
  | .raisesCapacity => true
  | .raisesOther => true
  | _ => false

/-- Per-camera outcomes that increment processed_count. -/
def camIntegrates : CamOutcome → Bool
  | .integrated => true
  | _ => false

/-! ## Quest image processing (quest_image_processor.py, lines 150-279) -/

/-- A filesystem path split into stem and lowercased suffix, the two
observations pathlib makes of it in process_quest_frame. -/
structure FPath where
  stem : String
  ext : String
deriving DecidableEq, Repr

/-- One entry of frame_info.cameras.  image = none models an absent key,
a stored null and the empty string alike: all fail the falsy test
`if not image_path_rel` at line 178. -/
structure CameraFiles where
  image : Option FPath
  depth : Option FPath
deriving DecidableEq, Repr

/-- The parts of a frames.json record that process_quest_frame reads. -/
structure FrameRecord where
  cameras : List (String × CameraFiles)
  timestamp : ℤ
deriving DecidableEq, Repr

/-- The filesystem and decoder oracle seen by process_quest_frame.  Image
and depth buffers are opaque tokens (their pixel content is irrelevant to
the interface behavior); operations that can raise in Python return
Except. -/
structure FileSys where
  pathExists : FPath → Bool
  imread : FPath → Option Nat
  imreadDepth : FPath → Option Nat
  isUint16 : Nat → Bool
  mmToMeters : Nat → Nat
  formatInfo : FPath → Except Unit (Nat × Nat)
  yuvToRgb : FPath → Nat → Nat → Except Unit Nat
  depthDescriptor : FPath → ℤ → Except Unit (Option DepthInfo)
  loadRawDepth : FPath → ℚ → ℚ → Except Unit Nat
  shape : Nat → Nat × Nat
  resize : Nat → Nat × Nat → Nat

/-- The triple returned by process_quest_frame. -/
abbrev Triple := Option Nat × Option Nat × Option DepthInfo

/-- project_path / relative_path. -/
def joinPath (dir : String) (p : FPath) : FPath := ⟨dir ++ "/" ++ p.stem, p.ext⟩

/-- project_path / f"{camera}_camera_image_format.json" (line 220). -/
def formatJsonPath (dir : String) (cam : String) : FPath :=
  ⟨dir ++ "/" ++ cam ++ "_camera_image_format", ".json"⟩

/-- project_path / f"{camera}_depth_descriptors.csv" (line 243). -/
def descriptorCsvPath (dir : String) (cam : String) : FPath :=
  ⟨dir ++ "/" ++ cam ++ "_depth_descriptors", ".csv"⟩

/-- The JPG/PNG depth tail (lines 201-215): missing or unreadable depth
degrades to (rgb, None, None); a uint16 buffer is scaled to meters. -/
def jpgDepthPart (fs : FileSys) (dir : String) (depthRel : Option FPath) (rgb : Nat) :
    Triple :=
  match depthRel with
  | none => (some rgb, none, none)
  | some drel =>
      let dpath := joinPath dir drel
      if fs.pathExists dpath = false then (some rgb, none, none)
      else
        match fs.imreadDepth dpath with
        | none => (some rgb, none, none)
        | some dm =>
            (some rgb, some (if fs.isUint16 dm then fs.mmToMeters dm else dm), none)

/-- The YUV+RAW branch (lines 218-267).  depth_width/height come from the
descriptor row when one matched, else the 320x320 default (lines 253-255);
the raw load raises on a size mismatch; the buffer is resized when its
shape differs from the RGB shape. -/
def yuvBranch (fs : FileSys) (dir : String) (cam : String) (ipath : FPath)
    (cdata : CameraFiles) (timestamp : ℤ) : Except Unit Triple :=
  let fjson := formatJsonPath dir cam
  if fs.pathExists fjson = false then .ok (none, none, none)
  else
    match fs.formatInfo fjson with
    | .error e => .error e
    | .ok (w, h) =>
        match fs.yuvToRgb ipath w h with
        | .error e => .error e
        | .ok rgb =>
            match cdata.depth with
            | none => .ok (some rgb, none, none)
            | some drel =>
                let dpath := joinPath dir drel
                if fs.pathExists dpath = false then .ok (some rgb, none, none)
                else
                  let csv := descriptorCsvPath dir cam
                  match (if fs.pathExists csv then fs.depthDescriptor csv timestamp
                         else .ok none) with
                  | .error e => .error e
                  | .ok dinfo =>
                      let dw := match dinfo with | some di => di.width | none => 320
                      let dh := match dinfo with | some di => di.height | none => 320
                      match fs.loadRawDepth dpath dw dh with
                      | .error e => .error e
                      | .ok dm =>
                          let dm2 := if fs.shape dm ≠ (h, w) then fs.resize dm (w, h)
                            else dm
                          .ok (some rgb, some dm2, dinfo)

/-- The try-block body of process_quest_frame (lines 166-271).  Early
Python returns are Except.ok; a Python exception anywhere in the body is
Except.error. -/
def processQuestFrameBody (fs : FileSys) (dir : String) (frame : FrameRecord)
    (camera : String) : Except Unit Triple :=
  let cams := frame.cameras
  let cam := if (cams.lookup camera).isNone then
               (if (cams.lookup "center").isSome then "center" else camera)
             else camera
  match cams.lookup cam with
  | none => .ok (none, none, none)
  | some cdata =>
      match cdata.image with
      | none => .ok (none, none, none)
      | some rel =>
          let ipath := joinPath dir rel
          if fs.pathExists ipath = false then .ok (none, none, none)
          else if rel.ext = ".jpg" ∨ rel.ext = ".jpeg" ∨ rel.ext = ".png" then
            match fs.imread ipath with
            | none => .ok (none, none, none)
            | some rgb => .ok (jpgDepthPart fs dir cdata.depth rgb)
          else if rel.ext = ".yuv" then
            yuvBranch fs dir cam ipath cdata frame.timestamp
          else .ok (none, none, none)

/-- process_quest_frame (lines 150-279): the whole body is wrapped in
try/except, and every exception is converted to (None, None, None). -/
def process_quest_frame (fs : FileSys) (dir : String) (frame : FrameRecord)
    (camera : String) : Triple :=
  match processQuestFrameBody fs dir frame camera with
  | .ok t => t
  | .error _ => (none, none, none)

/-! ## Auxiliary predicates and concrete fixtures -/

/-- A frame whose stored rotation scipy accepts (head matrix construction
at pipeline lines 213-214 does not raise). -/
def poseOk (f : LoopFrame) : Bool :=
  match fromQuatScipy f.rot with
  | .ok _ => true
  | .error _ => false

/-- The per-voxel invariant maintained by the update rule: weight in
[0, wmax] and normalized TSDF in [-1, 1]. -/
def VoxelInv (wmax : ℚ) (v : Voxel) : Prop :=
  0 ≤ v.weight ∧ v.weight ≤ wmax ∧ -1 ≤ v.tsdf ∧ v.tsdf ≤ 1

/-- Fixture filesystem: every .jpg exists and decodes to image token 7;
every other path (in particular the .png depth file) is absent. -/
def fsFix : FileSys :=
  { pathExists := fun p => p.ext == ".jpg"
    imread := fun _ => some 7
    imreadDepth := fun _ => none
    isUint16 := fun _ => false
    mmToMeters := fun d => d
    formatInfo := fun _ => .ok (640, 480)
    yuvToRgb := fun _ _ _ => .ok 5
    depthDescriptor := fun _ _ => .ok none
    loadRawDepth := fun _ _ _ => .ok 9
    shape := fun _ => (480, 640)
    resize := fun d _ => d }

/-- Fixture frame record: a left camera whose image is a readable .jpg and
whose listed depth file is missing on disk. -/
def frameFix : FrameRecord :=
  ⟨[("left", ⟨some ⟨"img/000", ".jpg"⟩, some ⟨"depth/000", ".png"⟩⟩)], 0⟩

/-! ## Helper lemmas: the voxel update -/

theorem min_weight_double (wobs wmax : ℚ) (hw : 0 < wobs) (hm : 0 ≤ wmax) :
    min (min wobs wmax + wobs) wmax = min (2 * wobs) wmax := by
  rcases le_total wobs wmax with h | h
  · rw [min_eq_left h, two_mul]
  · rw [min_eq_right h, min_eq_right (by linarith : wmax ≤ wmax + wobs),
      min_eq_right (by linarith : wmax ≤ 2 * wobs)]

theorem integrateVoxel_empty (wmax wobs u c : ℚ) (hw : wobs ≠ 0) :
    integrateVoxel wmax wobs emptyVoxel u c = ⟨u, min wobs wmax, c⟩ := by
  simp only [integrateVoxel, emptyVoxel, zero_mul, zero_add]
  rw [mul_div_cancel_right₀ _ hw, mul_div_cancel_right₀ _ hw]

theorem integrateVoxel_same (wmax wobs u c w1 : ℚ) (hpos : 0 < w1 + wobs) :
    integrateVoxel wmax wobs ⟨u, w1, c⟩ u c = ⟨u, min (w1 + wobs) wmax, c⟩ := by
  simp only [integrateVoxel]
  rw [← mul_add, ← mul_add, mul_div_assoc, mul_div_assoc, div_self hpos.ne', mul_one, mul_one]

theorem tsdf_update_bounds (trunc sdf : ℚ) (ht : 0 < trunc) (hs : -trunc < sdf) :
    -1 ≤ min sdf trunc / trunc ∧ min sdf trunc / trunc ≤ 1 := by
  constructor
  · rw [le_div_iff ht]
    have h1 : -trunc ≤ min sdf trunc := le_min hs.le (by linarith)
    linarith
  · rw [div_le_one ht]
    exact min_le_right _ _

theorem integrateVoxel_inv (wmax wobs u c : ℚ) (v : Voxel) (hw : 0 < wobs)
    (hm : 0 ≤ wmax) (hv : VoxelInv wmax v) (hu1 : -1 ≤ u) (hu2 : u ≤ 1) :
    VoxelInv wmax (integrateVoxel wmax wobs v u c) := by
  obtain ⟨h0, hcap, hl, hr⟩ := hv
  have hden : 0 < v.weight + wobs := by linarith
  have t1 : -v.weight ≤ v.tsdf * v.weight := by nlinarith
  have t2 : -wobs ≤ u * wobs := by nlinarith
  have t3 : v.tsdf * v.weight ≤ v.weight := by nlinarith
  have t4 : u * wobs ≤ wobs := by nlinarith
  refine ⟨le_min (by linarith) hm, min_le_right _ _, ?_, ?_⟩
  · show -1 ≤ (v.tsdf * v.weight + u * wobs) / (v.weight + wobs)
    rw [le_div_iff hden]
    linarith
  · show (v.tsdf * v.weight + u * wobs) / (v.weight + wobs) ≤ 1
    rw [div_le_one hden]
    linarith

theorem integrateObs_inv (trunc wmax wobs : ℚ) (v : Voxel) (o : Option (ℚ × ℚ))
    (ht : 0 < trunc) (hw : 0 < wobs) (hm : 0 ≤ wmax) (hv : VoxelInv wmax v) :
    VoxelInv wmax (integrateObs trunc wmax wobs v o) := by
  cases o with
  | none => exact hv
  | some p =>
      obtain ⟨sdf, cobs⟩ := p
      simp only [integrateObs]
      split_ifs with hs
      · obtain ⟨hu1, hu2⟩ := tsdf_update_bounds trunc sdf ht hs
        exact integrateVoxel_inv wmax wobs _ cobs v hw hm hv hu1 hu2
      · exact hv

theorem integrateObs_weight_mono (trunc wmax wobs : ℚ) (v : Voxel) (o : Option (ℚ × ℚ))
    (hw : 0 < wobs) (hcap : v.weight ≤ wmax) :
    v.weight ≤ (integrateObs trunc wmax wobs v o).weight := by
  cases o with
  | none => exact le_refl _
  | some p =>
      obtain ⟨sdf, cobs⟩ := p
      simp only [integrateObs]
      split_ifs with hs
      · exact le_min (by linarith) hcap
      · exact le_refl _

theorem integrateSeq_inv (trunc wmax wobs : ℚ) (ht : 0 < trunc) (hw : 0 < wobs)
    (hm : 0 ≤ wmax) :
    ∀ (obs : List (Option (ℚ × ℚ))) (v : Voxel), VoxelInv wmax v →
      VoxelInv wmax (integrateSeq trunc wmax wobs v obs) := by
  intro obs
  induction obs with
  | nil => intro v hv; exact hv
  | cons o rest ih =>
      intro v hv
      exact ih _ (integrateObs_inv trunc wmax wobs v o ht hw hm hv)

theorem integrateSeq_weight_mono (trunc wmax wobs : ℚ) (ht : 0 < trunc) (hw : 0 < wobs)
    (hm : 0 ≤ wmax) :
    ∀ (obs : List (Option (ℚ × ℚ))) (v : Voxel), VoxelInv wmax v →
      v.weight ≤ (integrateSeq trunc wmax wobs v obs).weight := by
  intro obs
  induction obs with
  | nil => intro v _; exact le_refl _
  | cons o rest ih =>
      intro v hv
      have h1 := integrateObs_weight_mono trunc wmax wobs v o hw hv.2.1
      have h2 := ih _ (integrateObs_inv trunc wmax wobs v o ht hw hm hv)
      exact le_trans h1 h2

theorem emptyVoxel_inv (wmax : ℚ) (hm : 0 ≤ wmax) : VoxelInv wmax emptyVoxel :=
  ⟨le_refl _, hm, by norm_num [emptyVoxel], by norm_num [emptyVoxel]⟩

/-! ## Claim C3 -/

/-- C3: integrating the same single frame twice into an otherwise-empty
grid yields the same per-voxel TSDF values (indeed the same voxel state,
weight and color included) as integrating it once with doubled
per-observation weight, under the running-average update with weight cap
w_max. -/
theorem C3_idempotent_accumulation (trunc wmax wobs : ℚ) (fr : Nat → Option (ℚ × ℚ))
    (i : Nat) (hw : 0 < wobs) (hm : 0 ≤ wmax) :
    integrateFrameGrid trunc wmax wobs (integrateFrameGrid trunc wmax wobs emptyGrid fr) fr i
      = integrateFrameGrid trunc wmax (2 * wobs) emptyGrid fr i := by
  simp only [integrateFrameGrid, emptyGrid]
  cases h : fr i with
  | none => simp [integrateObs, h]
  | some p =>
      obtain ⟨sdf, c⟩ := p
      simp only [integrateObs]
      split_ifs with hs
      · have h2w : (2 : ℚ) * wobs ≠ 0 := by positivity
        rw [integrateVoxel_empty wmax wobs _ _ hw.ne',
          integrateVoxel_empty wmax (2 * wobs) _ _ h2w]
        have hmin : (0 : ℚ) ≤ min wobs wmax := le_min hw.le hm
        rw [integrateVoxel_same wmax wobs _ _ _ (by linarith)]
        rw [min_weight_double wobs wmax hw hm]
      · rfl

/-- Witness for C3 at a concrete observation. -/
theorem C3_idempotent_accumulation_witness :
    (0 : ℚ) < 1 ∧ (0 : ℚ) ≤ 10 ∧
    integrateFrameGrid 1 10 1 (integrateFrameGrid 1 10 1 emptyGrid
        (fun _ => some (1 / 2, 1 / 4))) (fun _ => some (1 / 2, 1 / 4)) 0
      = integrateFrameGrid 1 10 (2 * 1) emptyGrid (fun _ => some (1 / 2, 1 / 4)) 0 :=
  ⟨by norm_num, by norm_num,
    C3_idempotent_accumulation 1 10 1 (fun _ => some (1 / 2, 1 / 4)) 0 (by norm_num)
      (by norm_num)⟩

/-! ## Claim C8 -/

/-- C8: starting from the empty grid, a voxel's weight is non-negative,
capped at w_max, and non-decreasing across any further integrations; and
whenever the weight is positive the TSDF distance estimate (the stored
normalized value scaled by trunc) lies within [-trunc, +trunc]. -/
theorem C8_grid_invariant (trunc wmax wobs : ℚ) (obs obsMore : List (Option (ℚ × ℚ)))
    (ht : 0 < trunc) (hw : 0 < wobs) (hm : 0 ≤ wmax) :
    0 ≤ (integrateSeq trunc wmax wobs emptyVoxel obs).weight ∧
    (integrateSeq trunc wmax wobs emptyVoxel obs).weight ≤ wmax ∧
    (integrateSeq trunc wmax wobs emptyVoxel obs).weight ≤
      (integrateSeq trunc wmax wobs emptyVoxel (obs ++ obsMore)).weight ∧
    (0 < (integrateSeq trunc wmax wobs emptyVoxel obs).weight →
      -trunc ≤ (integrateSeq trunc wmax wobs emptyVoxel obs).tsdf * trunc ∧
      (integrateSeq trunc wmax wobs emptyVoxel obs).tsdf * trunc ≤ trunc) := by
  have hinv := integrateSeq_inv trunc wmax wobs ht hw hm obs emptyVoxel
    (emptyVoxel_inv wmax hm)
  obtain ⟨h0, hcap, hl, hr⟩ := hinv
  refine ⟨h0, hcap, ?_, ?_⟩
  · have happ : integrateSeq trunc wmax wobs emptyVoxel (obs ++ obsMore)
        = integrateSeq trunc wmax wobs (integrateSeq trunc wmax wobs emptyVoxel obs)
            obsMore := by
      simp [integrateSeq, List.foldl_append]
    rw [happ]
    exact integrateSeq_weight_mono trunc wmax wobs ht hw hm obsMore _ ⟨h0, hcap, hl, hr⟩
  · intro _
    constructor <;> nlinarith

/-- Witness for C8 at a concrete session. -/
theorem C8_grid_invariant_witness :
    (0 : ℚ) < 1 ∧ (0 : ℚ) < 1 ∧ (0 : ℚ) ≤ 10 ∧
    (0 ≤ (integrateSeq 1 10 1 emptyVoxel [some (1 / 2, 0)]).weight ∧
     (integrateSeq 1 10 1 emptyVoxel [some (1 / 2, 0)]).weight ≤ 10 ∧
     (integrateSeq 1 10 1 emptyVoxel [some (1 / 2, 0)]).weight ≤
       (integrateSeq 1 10 1 emptyVoxel ([some (1 / 2, 0)] ++ [none])).weight ∧
     (0 < (integrateSeq 1 10 1 emptyVoxel [some (1 / 2, 0)]).weight →
       -1 ≤ (integrateSeq 1 10 1 emptyVoxel [some (1 / 2, 0)]).tsdf * 1 ∧
       (integrateSeq 1 10 1 emptyVoxel [some (1 / 2, 0)]).tsdf * 1 ≤ 1)) :=
  ⟨by norm_num, by norm_num, by norm_num,
    C8_grid_invariant 1 10 1 [some (1 / 2, 0)] [none] (by norm_num) (by norm_num)
      (by norm_num)⟩

/-! ## Claim C2 -/

/-- C2 counterexample: the adapter writes the identity head rotation as
[1, 0, 0, 0] (w first, quest_adapter.py lines 41-46), and the pipeline's
scipy from_quat reads that list as [x, y, z, w], producing a 180-degree
rotation about x instead of the identity: the two component orders are not
the same. -/
theorem C2_counterexample :
    headRotationMatrix (adaptPoseRotation 1 0 0 0) ≠ .ok (quatToMat ⟨0, 0, 0, 1⟩) ∧
    headRotationMatrix (adaptPoseRotation 1 0 0 0) = .ok (quatToMat ⟨1, 0, 0, 0⟩) := by
  have h1 : headRotationMatrix (adaptPoseRotation 1 0 0 0)
      = .ok (quatToMat ⟨1, 0, 0, 0⟩) := by
    norm_num [headRotationMatrix, adaptPoseRotation, fromQuatScipy, Except.map]
  refine ⟨?_, h1⟩
  rw [h1]
  intro h
  have h2 : quatToMat ⟨1, 0, 0, 0⟩ = quatToMat ⟨0, 0, 0, 1⟩ := by injection h
  have h3 : (quatToMat ⟨1, 0, 0, 0⟩).m11 = (quatToMat ⟨0, 0, 0, 1⟩).m11 := by rw [h2]
  norm_num [quatToMat] at h3

/-- C2 amended: the adapter writes [w,x,y,z] while the pipeline interprets
the stored list in scipy's [x,y,z,w] order, so every component lands one
slot off (the written w is read as x, and so on); a rotation vector whose
length is not 4 does fail fast (scipy raises ValueError). -/
theorem C2_order_mismatch :
    (∀ w x y z : ℚ, ¬ (w = 0 ∧ x = 0 ∧ y = 0 ∧ z = 0) →
      fromQuatScipy (adaptPoseRotation w x y z) = .ok ⟨w, x, y, z⟩) ∧
    (∀ l : List ℚ, l.length ≠ 4 → fromQuatScipy l = .error .valueError) := by
  constructor
  · intro w x y z h
    simp only [adaptPoseRotation, fromQuatScipy, if_neg h]
  · intro l hl
    match l with
    | [] => rfl
    | [a] => rfl
    | [a, b] => rfl
    | [a, b, c] => rfl
    | [a, b, c, d] => exact absurd rfl hl
    | a :: b :: c :: d :: e :: rest => rfl

/-- Witness for C2 at concrete inputs. -/
theorem C2_order_mismatch_witness :
    fromQuatScipy (adaptPoseRotation 1 0 0 0) = .ok ⟨1, 0, 0, 0⟩ ∧
    fromQuatScipy [1, 0, 0] = .error .valueError :=
  ⟨C2_order_mismatch.1 1 0 0 0 (by norm_num),
   C2_order_mismatch.2 [1, 0, 0] (by simp)⟩

/-! ## Claim C4 -/

/-- C4: with positive buffer dimensions, non-degenerate tangent sums and
both derived focal lengths above the 300-pixel floor,
get_camera_intrinsics returns the tangent-derived intrinsics
fx = width/(fov_left+fov_right), fy = height/(fov_top+fov_down) with the
principal point from the left/top tangent fractions; in every other case
it falls back to the per-camera metadata chain, whose ultimate defaults
are fx = fy = 867, cx = cy = 640. -/
theorem C4_intrinsics (meta : List (String × CamMeta)) (camera : String) (di : DepthInfo) :
    ((0 < di.width ∧ 0 < di.height ∧ 1 / 100 < di.fov_left + di.fov_right ∧
        1 / 100 < di.fov_top + di.fov_down ∧
        300 < di.width / (di.fov_left + di.fov_right) ∧
        300 < di.height / (di.fov_top + di.fov_down)) →
      get_camera_intrinsics meta camera (some di) =
        ⟨di.width / (di.fov_left + di.fov_right), di.height / (di.fov_top + di.fov_down),
         di.width * (di.fov_left / (di.fov_left + di.fov_right)),
         di.height * (di.fov_top / (di.fov_top + di.fov_down))⟩) ∧
    (¬ (0 < di.width ∧ 0 < di.height ∧ 1 / 100 < di.fov_left + di.fov_right ∧
        1 / 100 < di.fov_top + di.fov_down ∧
        300 < di.width / (di.fov_left + di.fov_right) ∧
        300 < di.height / (di.fov_top + di.fov_down)) →
      get_camera_intrinsics meta camera (some di) = fallbackIntrinsics meta camera) ∧
    get_camera_intrinsics meta camera none = fallbackIntrinsics meta camera ∧
    fallbackIntrinsics [] camera = ⟨867, 867, 640, 640⟩ := by
  refine ⟨?_, ?_, rfl, rfl⟩
  · rintro ⟨h1, h2, h3, h4, h5, h6⟩
    simp only [get_camera_intrinsics, compute_depth_camera_params]
    split_ifs with hA hB
    · rfl
    · exact absurd ⟨h5, h6⟩ hB
    · exact absurd ⟨h1, h2, h3, h4⟩ hA
  · intro h
    simp only [get_camera_intrinsics, compute_depth_camera_params]
    split_ifs with hA hB
    · exact absurd ⟨hA.1, hA.2.1, hA.2.2.1, hA.2.2.2, hB.1, hB.2⟩ h
    · rfl
    · rfl

/-- Witness for C4: a concrete calibration row that passes the derivation,
and the concrete derived intrinsics. -/
theorem C4_intrinsics_witness :
    get_camera_intrinsics [] "left"
        (some ⟨320, 320, 1 / 10, 3, 1 / 2, 1 / 2, 1 / 2, 1 / 2⟩) =
      ⟨320, 320, 160, 160⟩ := by
  have h := (C4_intrinsics [] "left" ⟨320, 320, 1 / 10, 3, 1 / 2, 1 / 2, 1 / 2, 1 / 2⟩).1
    (by norm_num)
  rw [h]
  norm_num [Intr.mk.injEq]

/-! ## Claim C5 -/

/-- C5: depth linearization preserves shape and "no data" pixels: zero raw
values stay zero for every calibration, the buffer shape is unchanged, a
raw value at the encoding midpoint with near = 0.1 and far = 3.0 maps
strictly between near and far, and without calibration the pipeline uses
the raw values unchanged. -/
theorem C5_depth_linearization (di : DepthInfo) (depth : List (List ℚ)) :
    pipelineLinearizeDepth none depth = depth ∧
    (pipelineLinearizeDepth (some di) depth).map List.length = depth.map List.length ∧
    (∀ near far : ℚ, linearizeSample near far 0 = 0) ∧
    List.Forall₂ (List.Forall₂ fun a b => a = 0 → b = 0) depth
      (pipelineLinearizeDepth (some di) depth) ∧
    (1 / 10 : ℚ) < linearizeSample (1 / 10) 3 (1 / 2) ∧
    linearizeSample (1 / 10) 3 (1 / 2) < 3 := by
  refine ⟨rfl, ?_, ?_, ?_, ?_, ?_⟩
  · simp only [pipelineLinearizeDepth, convert_depth_to_linear, List.map_map]
    apply List.map_congr_left
    intro row _
    simp
  · intro near far
    simp [linearizeSample]
  · simp only [pipelineLinearizeDepth, convert_depth_to_linear]
    rw [List.forall₂_map_right_iff, List.forall₂_same]
    intro row _
    rw [List.forall₂_map_right_iff, List.forall₂_same]
    intro a _ ha
    simp [linearizeSample, ha]
  · norm_num [linearizeSample]
  · norm_num [linearizeSample]

/-- Witness for C5 at a concrete buffer and calibration. -/
theorem C5_depth_linearization_witness :
    pipelineLinearizeDepth none [[0, 1 / 2], [1]] = [[0, 1 / 2], [1]] ∧
    linearizeSample (1 / 10) 3 0 = 0 ∧
    (1 / 10 : ℚ) < linearizeSample (1 / 10) 3 (1 / 2) ∧
    linearizeSample (1 / 10) 3 (1 / 2) < 3 := by
  have h := C5_depth_linearization ⟨320, 320, 1 / 10, 3, 1 / 2, 1 / 2, 1 / 2, 1 / 2⟩
    [[0, 1 / 2], [1]]
  exact ⟨h.1, h.2.2.1 (1 / 10) 3, h.2.2.2.2.1, h.2.2.2.2.2⟩

/-! ## Helper lemmas: the frame loop -/

@[simp] theorem pollState_processed (i : Nat) (s : LoopState) :
    (pollState i s).processed = s.processed := rfl

@[simp] theorem pollState_failed (i : Nat) (s : LoopState) :
    (pollState i s).failed = s.failed := rfl

@[simp] theorem pollState_integrated (i : Nat) (s : LoopState) :
    (pollState i s).integrated = s.integrated := rfl

@[simp] theorem pollState_progress (i : Nat) (s : LoopState) :
    (pollState i s).progress = s.progress := rfl

@[simp] theorem pollState_polls (i : Nat) (s : LoopState) :
    (pollState i s).polls = s.polls ++ [i] := rfl

@[simp] theorem progressState_processed (total i : Nat) (s : LoopState) :
    (progressState total i s).processed = s.processed := rfl

@[simp] theorem progressState_failed (total i : Nat) (s : LoopState) :
    (progressState total i s).failed = s.failed := rfl

@[simp] theorem progressState_integrated (total i : Nat) (s : LoopState) :
    (progressState total i s).integrated = s.integrated := rfl

@[simp] theorem progressState_progress (total i : Nat) (s : LoopState) :
    (progressState total i s).progress = s.progress ++ [(i + 1) * 100 / total] := rfl

@[simp] theorem progressState_polls (total i : Nat) (s : LoopState) :
    (progressState total i s).polls = s.polls := rfl

theorem stepCam_progress (i : Nat) (s : LoopState) (c : CamOutcome) :
    (stepCam i s c).progress = s.progress := by
  cases c <;> rfl

theorem stepCam_polls (i : Nat) (s : LoopState) (c : CamOutcome) :
    (stepCam i s c).polls = s.polls := by
  cases c <;> rfl

theorem stepCam_failed (i : Nat) (s : LoopState) (c : CamOutcome) :
    (stepCam i s c).failed = s.failed + (if camFails c then 1 else 0) := by
  cases c <;> simp [stepCam, camFails]

theorem stepCam_processed (i : Nat) (s : LoopState) (c : CamOutcome) :
    (stepCam i s c).processed = s.processed + (if camIntegrates c then 1 else 0) := by
  cases c <;> simp [stepCam, camIntegrates]

theorem stepCam_integrated_sub (i : Nat) (s : LoopState) (c : CamOutcome) (t : Nat)
    (h : t ∈ (stepCam i s c).integrated) : t ∈ s.integrated ∨ t = i := by
  cases c <;> simp_all [stepCam]

theorem stepCams_progress (i : Nat) (cs : List CamOutcome) :
    ∀ s : LoopState, (stepCams i s cs).progress = s.progress := by
  induction cs with
  | nil => intro s; rfl
  | cons c rest ih =>
      intro s
      simp only [stepCams, List.foldl_cons]
      exact (ih (stepCam i s c)).trans (stepCam_progress i s c)

theorem stepCams_polls (i : Nat) (cs : List CamOutcome) :
    ∀ s : LoopState, (stepCams i s cs).polls = s.polls := by
  induction cs with
  | nil => intro s; rfl
  | cons c rest ih =>
      intro s
      simp only [stepCams, List.foldl_cons]
      exact (ih (stepCam i s c)).trans (stepCam_polls i s c)

theorem stepCams_failed (i : Nat) (cs : List CamOutcome) :
    ∀ s : LoopState, (stepCams i s cs).failed = s.failed + cs.countP camFails := by
  induction cs with
  | nil => intro s; simp [stepCams]
  | cons c rest ih =>
      intro s
      simp only [stepCams, List.foldl_cons, List.countP_cons]
      rw [show List.foldl (stepCam i) (stepCam i s c) rest = stepCams i (stepCam i s c) rest
        from rfl, ih, stepCam_failed]
      cases hc : camFails c <;> simp [hc] <;> omega

theorem stepCams_processed (i : Nat) (cs : List CamOutcome) :
    ∀ s : LoopState, (stepCams i s cs).processed = s.processed + cs.countP camIntegrates := by
  induction cs with
  | nil => intro s; simp [stepCams]
  | cons c rest ih =>
      intro s
      simp only [stepCams, List.foldl_cons, List.countP_cons]
      rw [show List.foldl (stepCam i) (stepCam i s c) rest = stepCams i (stepCam i s c) rest
        from rfl, ih, stepCam_processed]
      cases hc : camIntegrates c <;> simp [hc] <;> omega

theorem stepCams_integrated_sub (i : Nat) (cs : List CamOutcome) :
    ∀ (s : LoopState) (t : Nat), t ∈ (stepCams i s cs).integrated →
      t ∈ s.integrated ∨ t = i := by
  induction cs with
  | nil => intro s t h; exact Or.inl h
  | cons c rest ih =>
      intro s t h
      simp only [stepCams, List.foldl_cons] at h
      rcases ih (stepCam i s c) t h with h1 | h2
      · exact stepCam_integrated_sub i s c t h1
      · exact Or.inr h2

theorem snd_mem_of_mem_enumFrom :
    ∀ (l : List LoopFrame) (n : Nat) (p : Nat × LoopFrame), p ∈ l.enumFrom n → p.2 ∈ l := by
  intro l
  induction l with
  | nil => intro n p h; simp [List.enumFrom] at h
  | cons a rest ih =>
      intro n p h
      simp only [List.enumFrom] at h
      rcases List.mem_cons.mp h with h1 | h2
      · rw [h1]; exact List.mem_cons_self _ _
      · exact List.mem_cons_of_mem _ (ih (n + 1) p h2)

theorem mem_everyNth (k : Nat) (l : List LoopFrame) (f : LoopFrame)
    (h : f ∈ everyNth k l) : f ∈ l := by
  simp only [everyNth, List.mem_filterMap] at h
  obtain ⟨p, hp, hif⟩ := h
  have h2 : p.2 = f := by
    by_cases hc : p.1 % k = 0
    · simpa [hc] using hif
    · simp [hc] at hif
  rw [← h2]
  exact snd_mem_of_mem_enumFrom l 0 p hp

theorem mem_processingFrames (frames : List LoopFrame) (a : Nat) (b : Option Nat)
    (k : Nat) (f : LoopFrame) (h : f ∈ processingFrames frames a b k) : f ∈ frames := by
  simp only [processingFrames] at h
  have h1 := mem_everyNth k _ f h
  exact List.Sublist.mem h1 ((List.take_sublist _ _).trans (List.drop_sublist _ _))

theorem loopRun_not_errored (cancel : Nat → Bool) (total : Nat) :
    ∀ (l : List LoopFrame) (i : Nat) (s : LoopState),
      (∀ f ∈ l, poseOk f = true) →
      ∀ s2, loopRun cancel total l i s ≠ .errored s2 := by
  intro l
  induction l with
  | nil => intro i s _ s2; simp [loopRun]
  | cons f rest ih =>
      intro i s hpose s2
      simp only [loopRun]
      by_cases hc : cancel i = true
      · simp [hc]
      · have hp := hpose f (List.mem_cons_self f rest)
        cases hq : fromQuatScipy f.rot with
        | error e => simp [poseOk, hq] at hp
        | ok q =>
            simp only [hc, if_false, hq]
            exact ih (i + 1) _ (fun g hg => hpose g (List.mem_cons_of_mem f hg)) s2

theorem loopRun_completed_counts (cancel : Nat → Bool) (total : Nat)
    (hcancel : ∀ n, cancel n = false) :
    ∀ (l : List LoopFrame) (i : Nat) (s : LoopState),
      (∀ f ∈ l, poseOk f = true) →
      ∃ s2, loopRun cancel total l i s = .completed s2 ∧
        s2.failed = s.failed + (l.map (fun f => f.camSteps.countP camFails)).sum ∧
        s2.processed = s.processed + (l.map (fun f => f.camSteps.countP camIntegrates)).sum := by
  intro l
  induction l with
  | nil => intro i s _; exact ⟨s, rfl, by simp, by simp⟩
  | cons f rest ih =>
      intro i s hpose
      have hp := hpose f (List.mem_cons_self f rest)
      cases hq : fromQuatScipy f.rot with
      | error e => simp [poseOk, hq] at hp
      | ok q =>
          obtain ⟨s2, hrun, hfail, hproc⟩ :=
            ih (i + 1) (stepCams i (progressState total i (pollState i s)) f.camSteps)
              (fun g hg => hpose g (List.mem_cons_of_mem f hg))
          refine ⟨s2, ?_, ?_, ?_⟩
          · simp only [loopRun, hcancel i, if_false, hq, Bool.false_eq_true]
            exact hrun
          · rw [hfail, stepCams_failed]
            simp only [progressState_failed, pollState_failed, List.map_cons, List.sum_cons]
            omega
          · rw [hproc, stepCams_processed]
            simp only [progressState_processed, pollState_processed, List.map_cons,
              List.sum_cons]
            omega

theorem progress_value_le (i total p : Nat) (hi : i ≤ total) (hp : p ≤ i * 100 / total) :
    p ≤ 100 := by
  rcases Nat.eq_zero_or_pos total with h0 | hpos
  · subst h0
    simp at hp
    omega
  · have h1 : i * 100 / total ≤ total * 100 / total :=
      Nat.div_le_div_right (Nat.mul_le_mul_right 100 hi)
    rw [Nat.mul_div_cancel_left 100 hpos] at h1
    omega

theorem progress_value_step (i total : Nat) :
    i * 100 / total ≤ (i + 1) * 100 / total :=
  Nat.div_le_div_right (Nat.mul_le_mul_right 100 (Nat.le_succ i))

theorem loopRun_progress_inv (cancel : Nat → Bool) (total : Nat) :
    ∀ (l : List LoopFrame) (i : Nat) (s : LoopState),
      i + l.length ≤ total →
      List.Pairwise (· ≤ ·) s.progress →
      (∀ p ∈ s.progress, p ≤ i * 100 / total) →
      List.Pairwise (· ≤ ·) (outState (loopRun cancel total l i s)).progress ∧
      ∀ p ∈ (outState (loopRun cancel total l i s)).progress, p ≤ 100 := by
  intro l
  induction l with
  | nil =>
      intro i s hle hp hb
      simp only [loopRun, outState]
      exact ⟨hp, fun p hmem => progress_value_le i total p (by omega) (hb p hmem)⟩
  | cons f rest ih =>
      intro i s hle hp hb
      simp only [loopRun]
      by_cases hc : cancel i = true
      · simp only [hc, if_true, outState, pollState_progress]
        exact ⟨hp, fun p hmem =>
          progress_value_le i total p (by simp at hle; omega) (hb p hmem)⟩
      · simp only [hc, if_false, Bool.false_eq_true]
        have hip1 : i + 1 ≤ total := by simp at hle; omega
        have hpair2 : List.Pairwise (· ≤ ·)
            (progressState total i (pollState i s)).progress := by
          simp only [progressState_progress, pollState_progress]
          rw [List.pairwise_append]
          refine ⟨hp, List.pairwise_singleton _ _, ?_⟩
          intro a ha b hbmem
          simp only [List.mem_singleton] at hbmem
          subst hbmem
          exact le_trans (hb a ha) (progress_value_step i total)
        have hbound2 : ∀ p ∈ (progressState total i (pollState i s)).progress,
            p ≤ (i + 1) * 100 / total := by
          simp only [progressState_progress, pollState_progress]
          intro p hmem
          rcases List.mem_append.mp hmem with h1 | h2
          · exact le_trans (hb p h1) (progress_value_step i total)
          · simp only [List.mem_singleton] at h2
            omega
        cases hq : fromQuatScipy f.rot with
        | error e =>
            simp only [outState]
            exact ⟨hpair2, fun p hmem =>
              progress_value_le (i + 1) total p hip1 (hbound2 p hmem)⟩
        | ok q =>
            have := ih (i + 1) (stepCams i (progressState total i (pollState i s)) f.camSteps)
              (by simp at hle ⊢; omega)
              (by rw [stepCams_progress]; exact hpair2)
              (by rw [stepCams_progress]; exact hbound2)
            exact this

theorem loopRun_cancelled (cancel : Nat → Bool) (total : Nat) :
    ∀ (l : List LoopFrame) (i : Nat) (s : LoopState) (j : Nat),
      (∀ f ∈ l, poseOk f = true) →
      (∀ f ∈ l, f.camSteps.length ≤ 1) →
      i ≤ j → j < i + l.length → cancel j = true →
      ∃ s2 n, loopRun cancel total l i s = .cancelled s2 ∧
        n ≤ j - i ∧
        s2.polls = s.polls ++ List.range' i (n + 1) ∧
        s2.processed ≤ s.processed + n ∧
        (∀ t ∈ s2.integrated, t ∈ s.integrated ∨ (i ≤ t ∧ t < i + n)) := by
  intro l
  induction l with
  | nil =>
      intro i s j _ _ hij hjlt _
      simp at hjlt
      omega
  | cons f rest ih =>
      intro i s j hpose hsingle hij hjlt hcj
      by_cases hc : cancel i = true
      · refine ⟨pollState i s, 0, ?_, by omega, ?_, by simp, ?_⟩
        · simp only [loopRun, hc, if_true]
        · simp [List.range'_one]
        · intro t ht
          simp only [pollState_integrated] at ht
          exact Or.inl ht
      · have hine : i ≠ j := by
          intro h
          rw [h] at hc
          exact hc hcj
        have hilt : i < j := lt_of_le_of_ne hij hine
        obtain ⟨s2, n', hrun, hn, hpolls, hproc, hint⟩ :=
          ih (i + 1) (stepCams i (progressState total i (pollState i s)) f.camSteps) j
            (fun g hg => hpose g (List.mem_cons_of_mem f hg))
            (fun g hg => hsingle g (List.mem_cons_of_mem f hg))
            (by omega) (by simp at hjlt; omega) hcj
        have hp := hpose f (List.mem_cons_self f rest)
        cases hq : fromQuatScipy f.rot with
        | error e => simp [poseOk, hq] at hp
        | ok q =>
            refine ⟨s2, n' + 1, ?_, by omega, ?_, ?_, ?_⟩
            · simp only [loopRun, hc, if_false, hq, Bool.false_eq_true]
              exact hrun
            · rw [hpolls, stepCams_polls]
              simp only [progressState_polls, pollState_polls]
              simp [List.range'_succ, List.append_assoc]
            · have h1 : (stepCams i (progressState total i (pollState i s))
                  f.camSteps).processed ≤ s.processed + 1 := by
                rw [stepCams_processed]
                simp only [progressState_processed, pollState_processed]
                have := List.countP_le_length (l := f.camSteps) camIntegrates
                have := hsingle f (List.mem_cons_self f rest)
                omega
              omega
            · intro t ht
              rcases hint t ht with h1 | h2
              · rcases stepCams_integrated_sub i f.camSteps _ t h1 with h3 | h4
                · simp only [progressState_integrated, pollState_integrated] at h3
                  exact Or.inl h3
                · right
                  omega
              · right
                omega

/-! ## Claim C1 -/

/-- C1 counterexample.  First conjunct: a frame whose pose rotation list
has length 3 makes scipy raise at lines 213-214, outside the per-camera
try block, so the exception escapes the frame loop (outcome errored), the
frame is not merely skipped and no counter is incremented.  Second
conjunct: a frame whose converted pose matrix is non-finite is skipped by
the guard at line 333 via continue, with the failure counter left at 0,
not incremented. -/
theorem C1_counterexample :
    run_reconstruction (fun _ => false) [⟨[1, 0, 0], []⟩] 0 none 1 =
      .errored ⟨0, 0, [], [100], [0]⟩ ∧
    run_reconstruction (fun _ => false) [⟨[0, 0, 0, 1], [.nonFinitePose]⟩] 0 none 1 =
      .completed ⟨0, 0, [], [100], [0]⟩ := by
  constructor
  · decide
  · decide

/-- C1 amended: per-camera failures inside the try block (missing data and
exceptions) are isolated and counted, and with a well-formed rotation on
every processed frame no exception escapes the frame loop; but the
non-finite-pose and suspicious-intrinsics guards skip without counting,
and a head-pose construction failure (malformed rotation vector)
propagates out of the loop. -/
theorem C1_fault_isolation (cancel : Nat → Bool) (frames : List LoopFrame)
    (startF : Nat) (endF : Option Nat) (interval : Nat)
    (hpose : ∀ f ∈ frames, poseOk f = true) :
    (∀ s, run_reconstruction cancel frames startF endF interval ≠ .errored s) ∧
    ((∀ n, cancel n = false) →
      ∃ s, run_reconstruction cancel frames startF endF interval = .completed s ∧
        s.failed = ((processingFrames frames startF endF interval).map
          (fun f => f.camSteps.countP camFails)).sum ∧
        s.processed = ((processingFrames frames startF endF interval).map
          (fun f => f.camSteps.countP camIntegrates)).sum) := by
  have hposepf : ∀ f ∈ processingFrames frames startF endF interval, poseOk f = true :=
    fun f hf => hpose f (mem_processingFrames frames startF endF interval f hf)
  constructor
  · intro s
    exact loopRun_not_errored cancel _ _ 0 initState hposepf s
  · intro hcancel
    obtain ⟨s2, hrun, hfail, hproc⟩ :=
      loopRun_completed_counts cancel _ hcancel _ 0 initState hposepf
    exact ⟨s2, hrun, by simpa [initState] using hfail, by simpa [initState] using hproc⟩

/-- Witness for C1 at a concrete run: one frame, one camera returning no
data (counted) and one integrating. -/
theorem C1_fault_isolation_witness :
    ∃ s, run_reconstruction (fun _ => false)
        [⟨[0, 0, 0, 1], [.noData, .integrated]⟩] 0 none 1 = .completed s ∧
      s.failed = 1 ∧ s.processed = 1 := by
  obtain ⟨s, h1, h2, h3⟩ := (C1_fault_isolation (fun _ => false)
    [⟨[0, 0, 0, 1], [.noData, .integrated]⟩] 0 none 1 (by decide)).2 (fun n => rfl)
  refine ⟨s, h1, ?_, ?_⟩
  · rw [h2]; decide
  · rw [h3]; decide

/-! ## Claim C6 -/

/-- C6 counterexample: with camera mode both (two per-camera outcomes per
frame), the cancellation predicate returns true at the poll of frame
boundary K = 1, before frame 1 is processed, yet the processed counter is
already 2 > K, because processed_count counts per-camera integrations.
The run is still cancelled cleanly with no mesh. -/
theorem C6_counterexample :
    run_reconstruction (fun i => i == 1)
        [⟨[0, 0, 0, 1], [.integrated, .integrated]⟩, ⟨[0, 0, 0, 1], []⟩] 0 none 1
      = .cancelled ⟨2, 0, [0, 0], [50], [0, 1]⟩ ∧
    ¬ (outState (run_reconstruction (fun i => i == 1)
        [⟨[0, 0, 0, 1], [.integrated, .integrated]⟩, ⟨[0, 0, 0, 1], []⟩] 0 none 1)).processed
        ≤ 1 := by
  constructor
  · decide
  · decide

/-- C6 amended: with a well-formed rotation on every frame and a single
selected camera, a cancellation observed at a poll j ≤ K halts the run:
the outcome is cancelled (no exception), nothing is integrated at or
after frame K, the processed counter is at most K, mesh extraction is not
reached, and the poll trace is a duplicate-free initial segment of the
frame boundaries (one poll per boundary) of length at most j + 1.  With
camera mode both the processed counter counts per-camera integrations and
can exceed K. -/
theorem C6_cancellation (cancel : Nat → Bool) (frames : List LoopFrame)
    (startF : Nat) (endF : Option Nat) (interval : Nat) (K j : Nat)
    (hpose : ∀ f ∈ frames, poseOk f = true)
    (hsingle : ∀ f ∈ frames, f.camSteps.length ≤ 1)
    (hj : j < (processingFrames frames startF endF interval).length)
    (hjK : j ≤ K) (hcj : cancel j = true) :
    ∃ s, run_reconstruction cancel frames startF endF interval = .cancelled s ∧
      (∀ t ∈ s.integrated, t < K) ∧
      s.processed ≤ K ∧
      meshExtracted (run_reconstruction cancel frames startF endF interval) = false ∧
      s.polls = List.range s.polls.length ∧
      s.polls.length ≤ j + 1 := by
  obtain ⟨s2, n, hrun, hn, hpolls, hproc, hint⟩ :=
    loopRun_cancelled cancel (processingFrames frames startF endF interval).length
      (processingFrames frames startF endF interval) 0 initState j
      (fun f hf => hpose f (mem_processingFrames _ _ _ _ f hf))
      (fun f hf => hsingle f (mem_processingFrames _ _ _ _ f hf))
      (Nat.zero_le j) (by omega) hcj
  refine ⟨s2, hrun, ?_, ?_, ?_, ?_, ?_⟩
  · intro t ht
    rcases hint t ht with h1 | h2
    · simp [initState] at h1
    · omega
  · simp only [initState] at hproc
    omega
  · simp only [run_reconstruction]
    rw [hrun]
    rfl
  · rw [hpolls]
    simp [initState, List.range_eq_range', List.length_range']
  · rw [hpolls]
    simp [initState, List.length_range']
    omega

/-- Witness for C6 at a concrete run: three single-camera frames,
cancellation observed at boundary 1 = K. -/
theorem C6_cancellation_witness :
    ∃ s, run_reconstruction (fun i => i == 1)
        [⟨[0, 0, 0, 1], [.integrated]⟩, ⟨[0, 0, 0, 1], [.integrated]⟩,
          ⟨[0, 0, 0, 1], [.integrated]⟩] 0 none 1 = .cancelled s ∧
      (∀ t ∈ s.integrated, t < 1) ∧
      s.processed ≤ 1 ∧
      meshExtracted (run_reconstruction (fun i => i == 1)
        [⟨[0, 0, 0, 1], [.integrated]⟩, ⟨[0, 0, 0, 1], [.integrated]⟩,
          ⟨[0, 0, 0, 1], [.integrated]⟩] 0 none 1) = false ∧
      s.polls = List.range s.polls.length ∧
      s.polls.length ≤ 1 + 1 :=
  C6_cancellation (fun i => i == 1)
    [⟨[0, 0, 0, 1], [.integrated]⟩, ⟨[0, 0, 0, 1], [.integrated]⟩,
      ⟨[0, 0, 0, 1], [.integrated]⟩] 0 none 1 1 1
    (by decide) (by decide) (by decide) (le_refl 1) (by decide)

/-! ## Claim C7 -/

/-- C7 counterexample: the grid does signal GridCapacityExceeded when the
configured block count is exceeded, but the orchestrator's per-camera
except-handler (line 348) absorbs such an exception: the run with a
capacity-raising integration completes (outcome is completed, not
errored), with the failure silently counted as a per-frame failure rather
than propagated to the caller. -/
theorem C7_counterexample :
    activateBlocks ⟨[], 1⟩ [(0, 0, 0), (1, 0, 0)] = .error .gridCapacityExceeded ∧
    run_reconstruction (fun _ => false) [⟨[0, 0, 0, 1], [.raisesCapacity]⟩] 0 none 1 =
      .completed ⟨0, 1, [], [100], [0]⟩ := by
  constructor
  · rfl
  · decide

/-- C7 amended: exceeding the configured block capacity signals
GridCapacityExceeded at the grid, but inside run_reconstruction's frame
loop that exception is caught by the per-camera handler like any other
exception: the run completes and the event is only recorded in the
failure counter. -/
theorem C7_capacity_absorbed :
    (∀ (g : VoxelGrid) (coords : List BlockCoord),
        g.capacity < (insertBlocks g.active coords).length →
        activateBlocks g coords = .error .gridCapacityExceeded) ∧
    (∀ (cancel : Nat → Bool) (frames : List LoopFrame) (startF : Nat)
        (endF : Option Nat) (interval : Nat),
        (∀ f ∈ frames, poseOk f = true) → (∀ n, cancel n = false) →
        ∃ s, run_reconstruction cancel frames startF endF interval = .completed s ∧
          ((processingFrames frames startF endF interval).map
            (fun f => f.camSteps.countP (· == CamOutcome.raisesCapacity))).sum ≤
            s.failed) := by
  constructor
  · intro g coords h
    simp only [activateBlocks]
    rw [if_pos h]
  · intro cancel frames startF endF interval hpose hcancel
    obtain ⟨s2, hrun, hfail, _⟩ :=
      loopRun_completed_counts cancel (processingFrames frames startF endF interval).length
        hcancel (processingFrames frames startF endF interval) 0 initState
        (fun f hf => hpose f (mem_processingFrames _ _ _ _ f hf))
    refine ⟨s2, hrun, ?_⟩
    rw [hfail]
    have hmono : ((processingFrames frames startF endF interval).map
        (fun f => f.camSteps.countP (· == CamOutcome.raisesCapacity))).sum ≤
        ((processingFrames frames startF endF interval).map
          (fun f => f.camSteps.countP camFails)).sum := by
      apply List.sum_le_sum
      intro f _
      apply List.countP_mono_left
      intro c _ hc
      have hceq : c = CamOutcome.raisesCapacity := by simpa using hc
      rw [hceq]
      rfl
    simp only [initState]
    omega

/-- Witness for C7: the concrete over-capacity activation and the concrete
absorbed capacity failure. -/
theorem C7_capacity_absorbed_witness :
    activateBlocks ⟨[(0, 0, 0)], 1⟩ [(2, 0, 0)] = .error .gridCapacityExceeded ∧
    ∃ s, run_reconstruction (fun _ => false) [⟨[0, 0, 0, 1], [.raisesCapacity]⟩] 0 none 1
        = .completed s ∧ 1 ≤ s.failed := by
  constructor
  · exact C7_capacity_absorbed.1 ⟨[(0, 0, 0)], 1⟩ [(2, 0, 0)] (by decide)
  · obtain ⟨s, h1, h2⟩ := C7_capacity_absorbed.2 (fun _ => false)
      [⟨[0, 0, 0, 1], [.raisesCapacity]⟩] 0 none 1 (by decide) (fun n => rfl)
    have he : ((processingFrames [⟨[0, 0, 0, 1], [.raisesCapacity]⟩] 0 none 1).map
        (fun f => f.camSteps.countP (· == CamOutcome.raisesCapacity))).sum = 1 := by
      decide
    rw [he] at h2
    exact ⟨s, h1, h2⟩

/-! ## Claim C9 -/

/-- C9: within a single run_reconstruction call the sequence of values
passed to on_progress is monotonically non-decreasing and every value
lies between 0 and 100, whatever the cancellation predicate, frame list,
range and stride. -/
theorem C9_progress_monotone (cancel : Nat → Bool) (frames : List LoopFrame)
    (startF : Nat) (endF : Option Nat) (interval : Nat) :
    List.Pairwise (· ≤ ·)
      (outState (run_reconstruction cancel frames startF endF interval)).progress ∧
    ∀ p ∈ (outState (run_reconstruction cancel frames startF endF interval)).progress,
      0 ≤ p ∧ p ≤ 100 := by
  have h := loopRun_progress_inv cancel
    (processingFrames frames startF endF interval).length
    (processingFrames frames startF endF interval) 0 initState
    (by simp) (by simp [initState]) (by simp [initState])
  exact ⟨h.1, fun p hmem => ⟨Nat.zero_le p, h.2 p hmem⟩⟩

/-! ## Claim C10 -/

/-- C10 counterexample: a frame whose camera entry and image file are fine
but whose listed depth file is missing yields (rgb, None, None), not
(None, None, None) - so a missing referenced file does not always produce
the all-None triple (lines 201-215 degrade missing depth gracefully). -/
theorem C10_counterexample :
    fsFix.pathExists (joinPath "p" ⟨"depth/000", ".png"⟩) = false ∧
    process_quest_frame fsFix "p" frameFix "left" = (some 7, none, none) ∧
    process_quest_frame fsFix "p" frameFix "left" ≠
      ((none : Option Nat), (none : Option Nat), (none : Option DepthInfo)) := by
  refine ⟨rfl, rfl, fun h => ?_⟩
  rw [show process_quest_frame fsFix "p" frameFix "left" = (some 7, none, none) from rfl] at h
  simp at h

/-- C10 amended: process_quest_frame is total (every internal exception is
converted to the all-None triple); a missing camera entry falls back to a
present center entry and otherwise yields (None, None, None); a missing
or unreadable image file and an unsupported image extension yield
(None, None, None); but a missing depth file with a readable image yields
(rgb, None, None). -/
theorem C10_interface (fs : FileSys) (dir : String) (frame : FrameRecord)
    (camera : String) :
    (∀ e, processQuestFrameBody fs dir frame camera = .error e →
      process_quest_frame fs dir frame camera = (none, none, none)) ∧
    (frame.cameras.lookup camera = none → (frame.cameras.lookup "center").isSome = true →
      process_quest_frame fs dir frame camera = process_quest_frame fs dir frame "center") ∧
    (frame.cameras.lookup camera = none → frame.cameras.lookup "center" = none →
      process_quest_frame fs dir frame camera = (none, none, none)) ∧
    (∀ cdata, frame.cameras.lookup camera = some cdata → cdata.image = none →
      process_quest_frame fs dir frame camera = (none, none, none)) ∧
    (∀ cdata rel, frame.cameras.lookup camera = some cdata → cdata.image = some rel →
      fs.pathExists (joinPath dir rel) = false →
      process_quest_frame fs dir frame camera = (none, none, none)) ∧
    (∀ cdata rel, frame.cameras.lookup camera = some cdata → cdata.image = some rel →
      fs.pathExists (joinPath dir rel) = true →
      rel.ext ≠ ".jpg" → rel.ext ≠ ".jpeg" → rel.ext ≠ ".png" → rel.ext ≠ ".yuv" →
      process_quest_frame fs dir frame camera = (none, none, none)) ∧
    (∀ cdata rel drel rgb, frame.cameras.lookup camera = some cdata →
      cdata.image = some rel → rel.ext = ".jpg" →
      fs.pathExists (joinPath dir rel) = true →
      fs.imread (joinPath dir rel) = some rgb →
      cdata.depth = some drel → fs.pathExists (joinPath dir drel) = false →
      process_quest_frame fs dir frame camera = (some rgb, none, none)) := by
  refine ⟨?_, ?_, ?_, ?_, ?_, ?_, ?_⟩
  · intro e he
    simp [process_quest_frame, he]
  · intro hcam hcen
    obtain ⟨cd, hcd⟩ := Option.isSome_iff_exists.mp hcen
    simp [process_quest_frame, processQuestFrameBody, hcam, hcd]
  · intro hcam hcen
    simp [process_quest_frame, processQuestFrameBody, hcam, hcen]
  · intro cdata hcam himg
    simp [process_quest_frame, processQuestFrameBody, hcam, himg]
  · intro cdata rel hcam himg hp
    simp [process_quest_frame, processQuestFrameBody, hcam, himg, hp]
  · intro cdata rel hcam himg hp h1 h2 h3 h4
    simp [process_quest_frame, processQuestFrameBody, hcam, himg, hp, h1, h2, h3, h4]
  · intro cdata rel drel rgb hcam himg hext hp hread hdep hdp
    simp [process_quest_frame, processQuestFrameBody, jpgDepthPart, hcam, himg, hext,
      hp, hread, hdep, hdp]

/-- Witness for C10 at the concrete fixture: readable jpg, missing depth
file, degraded result. -/
theorem C10_interface_witness :
    process_quest_frame fsFix "p" frameFix "left" = (some 7, none, none) :=
  (C10_interface fsFix "p" frameFix "left").2.2.2.2.2.2
    ⟨some ⟨"img/000", ".jpg"⟩, some ⟨"depth/000", ".png"⟩⟩ ⟨"img/000", ".jpg"⟩
    ⟨"depth/000", ".png"⟩ 7 rfl rfl rfl rfl rfl rfl rfl

end QuestStream
